import Mathlib

/-!
# GraphLab JNI bridge: `proxy_updater` (src/graphlab/jni/org_graphlab_Updater.hpp)

A shallow embedding of the `proxy_updater` class: its constructors, `operator=`,
destructor and `operator()`, over an explicit model of the JNI functions the
class calls through `JNIEnv`.

The JNI functions are an external library.  Their state is the record `JNIEnv`
below; whatever the Java side decides (whether `NewGlobalRef` can allocate, what
the Java callback does, whether a class can be loaded) is an explicit argument.
Every call the C++ code makes is also appended to `JNIEnv.trace`, so that the
order and the number of calls can be stated.
-/

namespace GraphLab

/-! ## JNI values -/

/-- A non-NULL JNI reference: the slot `id` of the reference itself and the
identity `obj` of the Java object it designates. -/
structure jref where
  id : Nat
  obj : Nat
deriving DecidableEq

/-- The type `jobject`: `none` is `NULL`. -/
abbrev jobject := Option jref

/-- The type `jmethodID`. -/
abbrev jmethodID := Nat

/-- The type `jclass`: `none` is `NULL`, otherwise the class of that name. -/
abbrev jclass := Option String

/-- A Java throwable: its class and its message (`jthrowable` is an optional one). -/
structure Throwable where
  cls : String
  msg : String
deriving DecidableEq

/-- The type `jthrowable`: `none` is `NULL`. -/
abbrev jthrowable := Option Throwable

/-- The calls the C++ code makes to the outside, in the order it makes them. -/
inductive Action where
  | get_jni_env
  | NewGlobalRef (ref : jobject) (result : jobject)
  | DeleteGlobalRef (ref : jobject)
  | CallVoidMethod (obj : jobject) (methodID : jmethodID) (context : Nat) (app_vertex_id : Int)
  | ExceptionOccurred
  | logstream (text : String)
  | ExceptionDescribe
  | ExceptionClear
  | FindClass (name : String)
  | ThrowNew (cls : String) (msg : String)
deriving DecidableEq

/-- The Java runtime as one native thread sees it through its `JNIEnv*`.
* `globals`: the live global references (the pins);
* `next`: the slot the next global reference gets;
* `pending`: the exception pending on the thread, if any;
* `invalidDeletes`: how many times `DeleteGlobalRef` was given a reference that
  was not a live global reference (a double release);
* `trace`: every outside call made so far, oldest first. -/
structure JNIEnv where
  globals : List jref
  next : Nat
  pending : jthrowable
  invalidDeletes : Nat
  trace : List Action
deriving DecidableEq

/-- What the Java side decides during `operator()`.
* `callback obj mid ctx id`: the exception state in which the call of method
  `mid` on `obj` with arguments `(ctx, id)` leaves the thread (`none`: the
  callback completed normally);
* `loadable name`: whether `FindClass name` finds the class;
* `loadFailure name`: what a `FindClass name` that fails leaves pending (an
  exception, on a runtime that `conforms`). -/
structure ForeignRuntime where
  callback : jobject → jmethodID → Nat → Int → jthrowable
  loadable : String → Bool
  loadFailure : String → jthrowable

/-- The JNI contract of `FindClass`: a lookup that returns `NULL` has thrown
(`NoClassDefFoundError`, `ClassFormatError`, `ClassCircularityError` or
`OutOfMemoryError`), so it leaves an exception pending on the thread. -/
def ForeignRuntime.conforms (rt : ForeignRuntime) : Prop :=
  ∀ name, rt.loadable name = false → (rt.loadFailure name).isSome = true

namespace JNIEnv

/-- A thread with no pins, no pending exception and no call made. -/
def init : JNIEnv :=
  { globals := [], next := 0, pending := none, invalidDeletes := 0, trace := [] }

/-- Append one call to the trace. -/
def record (env : JNIEnv) (a : Action) : JNIEnv :=
  { env with trace := env.trace ++ [a] }

/-- The number of live global references (pins) on the Java object `F`. -/
def pins (env : JNIEnv) (F : Nat) : Nat :=
  env.globals.countP (fun g => decide (g.obj = F))

/-- JNI `NewGlobalRef`: on `NULL` it returns `NULL`; otherwise, when the
runtime can allocate (`ok`), it returns a fresh global reference to the same
object, and when it cannot, it returns `NULL`. -/
def NewGlobalRef (env : JNIEnv) (ok : Bool) (ref : jobject) : JNIEnv × jobject :=
  match ref with
  | none => (env.record (Action.NewGlobalRef none none), none)
  | some r =>
    if ok then
      let g : jref := { id := env.next, obj := r.obj }
      ({ env with globals := g :: env.globals, next := env.next + 1,
                  trace := env.trace ++ [Action.NewGlobalRef (some r) (some g)] }, some g)
    else
      (env.record (Action.NewGlobalRef (some r) none), none)

/-- JNI `DeleteGlobalRef`: removes a live global reference; a reference that is
not a live global reference is counted in `invalidDeletes`. -/
def DeleteGlobalRef (env : JNIEnv) (ref : jobject) : JNIEnv :=
  match ref with
  | none => env.record (Action.DeleteGlobalRef none)
  | some g =>
    if g ∈ env.globals then
      { env with globals := env.globals.erase g,
                 trace := env.trace ++ [Action.DeleteGlobalRef (some g)] }
    else
      { env with invalidDeletes := env.invalidDeletes + 1,
                 trace := env.trace ++ [Action.DeleteGlobalRef (some g)] }

/-- JNI `CallVoidMethod`: runs the Java method; afterwards the thread is in the
exception state the callback left. -/
def CallVoidMethod (env : JNIEnv) (rt : ForeignRuntime) (obj : jobject) (methodID : jmethodID)
    (context : Nat) (app_vertex_id : Int) : JNIEnv :=
  { env with pending := rt.callback obj methodID context app_vertex_id,
             trace := env.trace ++ [Action.CallVoidMethod obj methodID context app_vertex_id] }

/-- JNI `ExceptionOccurred`: returns the pending exception, `NULL` if none. -/
def ExceptionOccurred (env : JNIEnv) : JNIEnv × jthrowable :=
  (env.record Action.ExceptionOccurred, env.pending)

/-- JNI `ExceptionDescribe`: prints the pending exception.  The model leaves the
clearing to the `ExceptionClear` that follows it at line 161. -/
def ExceptionDescribe (env : JNIEnv) : JNIEnv :=
  env.record Action.ExceptionDescribe

/-- JNI `ExceptionClear`: afterwards no exception is pending. -/
def ExceptionClear (env : JNIEnv) : JNIEnv :=
  { env with pending := none, trace := env.trace ++ [Action.ExceptionClear] }

/-- JNI `FindClass`: the class when it can be loaded; otherwise `NULL`, and the
thread is left with whatever the failed lookup raised. -/
def FindClass (env : JNIEnv) (rt : ForeignRuntime) (name : String) : JNIEnv × jclass :=
  if rt.loadable name then
    (env.record (Action.FindClass name), some name)
  else
    ({ env with pending := rt.loadFailure name,
                trace := env.trace ++ [Action.FindClass name] }, none)

/-- JNI `ThrowNew`: a new exception of class `cls` with message `msg` becomes
pending. -/
def ThrowNew (env : JNIEnv) (cls : String) (msg : String) : JNIEnv :=
  { env with pending := some { cls := cls, msg := msg },
             trace := env.trace ++ [Action.ThrowNew cls msg] }

/-- The C++ `logstream(LOG_ERROR) << text`. -/
def logstream (env : JNIEnv) (text : String) : JNIEnv :=
  env.record (Action.logstream text)

end JNIEnv

/-- Modelled from the spec: `graphlab::jni_core<proxy_graph, proxy_updater>::get_jni_env()`
is not in the source file; it hands out the calling thread's foreign-runtime
access context.  Here that is the thread's `JNIEnv`, and the call is recorded. -/
def get_jni_env (env : JNIEnv) : JNIEnv :=
  env.record Action.get_jni_env

/-! ## The proxy types -/

/-- The struct `proxy_vertex`: the application vertex ID. -/
structure proxy_vertex where
  app_id : Int
deriving DecidableEq

/-- Modelled from the spec: the engine type `icontext_type` is declared outside
the source file; it is supplied per call and carries the data that identifies
the vertex being processed.  Here: the address `&context` that is passed to
Java, and what `context.vertex_data()` returns. -/
structure icontext_type where
  addr : Nat
  vertex_data : proxy_vertex
deriving DecidableEq

/-- The class `proxy_updater`: its one field. -/
structure proxy_updater where
  mjava_updater : jobject
deriving DecidableEq

namespace proxy_updater

/-- Lines 85-87, `proxy_updater(JNIEnv *env, jobject &java_updater)`. -/
def constructor (env : JNIEnv) (ok : Bool) (java_updater : jobject) : JNIEnv × proxy_updater :=
  let r := env.NewGlobalRef ok java_updater
  (r.1, { mjava_updater := r.2 })

/-- Line 90, `proxy_updater()`. -/
def default_constructor : proxy_updater :=
  { mjava_updater := none }

/-- Lines 92-103, `proxy_updater(const proxy_updater& other)`. -/
def copy_constructor (env0 : JNIEnv) (ok : Bool) (other : proxy_updater) :
    JNIEnv × proxy_updater :=
  if other.mjava_updater = none then
    (env0, { mjava_updater := none })
  else
    let env := get_jni_env env0
    let r := env.NewGlobalRef ok other.mjava_updater
    (r.1, { mjava_updater := r.2 })

/-- Lines 110-114 of `operator=`: `java_updater = NULL`, then a new reference
if `other` has a Java object. -/
def assign_acquire (env : JNIEnv) (ok : Bool) (other : proxy_updater) : JNIEnv × jobject :=
  if other.mjava_updater ≠ none then env.NewGlobalRef ok other.mjava_updater
  else (env, none)

/-- Lines 117-118 of `operator=`: delete the reference `this` has, if any. -/
def assign_release (env : JNIEnv) (self : proxy_updater) : JNIEnv :=
  if self.mjava_updater ≠ none then env.DeleteGlobalRef self.mjava_updater
  else env

/-- Lines 105-127, `operator=(const proxy_updater &other)`.  `this` and `other`
are the addresses of the two objects, `self` and `oth` their contents; the
result is the new content of `*this`. -/
def operator_assign (env0 : JNIEnv) (ok : Bool) (this other : Nat)
    (self oth : proxy_updater) : JNIEnv × proxy_updater :=
  if this ≠ other then
    let env := get_jni_env env0
    let acquired := assign_acquire env ok oth
    let released := assign_release acquired.1 self
    (released, { mjava_updater := acquired.2 })
  else
    (env0, self)

/-- Lines 129-135, `~proxy_updater()`: what the destructor does to the thread.
The store `mjava_updater = NULL` of line 134 is the last statement of the
destructor, into an object whose lifetime ends there; nothing the class or the
thread does afterwards reads it, so it is no part of this result (see
`destroyed_storage`). -/
def destructor (env0 : JNIEnv) (self : proxy_updater) : JNIEnv :=
  if self.mjava_updater = none then
    env0
  else
    let env := get_jni_env env0
    env.DeleteGlobalRef self.mjava_updater

/-- Lines 137-168, `void operator()(icontext_type& context)`.  The function has
no `throw` and returns `void`: all it hands back is the state of the thread. -/
def operator_call (self : proxy_updater) (rt : ForeignRuntime) (java_method_id : jmethodID)
    (env0 : JNIEnv) (context : icontext_type) : JNIEnv :=
  let env := get_jni_env env0
  let app_vertex_id := context.vertex_data.app_id
  let env := env.CallVoidMethod rt self.mjava_updater java_method_id context.addr app_vertex_id
  let r := env.ExceptionOccurred
  match r.2 with
  | some _ =>
    let env := r.1.logstream "Exception occured!!"
    let env := env.ExceptionDescribe
    let env := env.ExceptionClear
    let f := env.FindClass rt "java/lang/IllegalArgumentException"
    match f.2 with
    | none => f.1
    | some new_exc => f.1.ThrowNew new_exc "thrown from C code"
  | none => r.1

end proxy_updater

/-! ## The native objects of a thread -/

/-- The Java runtime together with the `proxy_updater` objects of the native
side, by address: `some p` is a live object holding `p`, `none` an object whose
lifetime has ended. -/
structure World where
  env : JNIEnv
  heap : List (Option proxy_updater)
deriving DecidableEq

/-- The operations of the class on the objects of a `World`. -/
inductive Op where
  | construct (java_updater : jobject) (ok : Bool)
  | construct_default
  | copy (other : Nat) (ok : Bool)
  | assign (this other : Nat) (ok : Bool)
  | destroy (this : Nat)
deriving DecidableEq

namespace World

/-- No proxies and no pins. -/
def init : World :=
  { env := JNIEnv.init, heap := [] }

/-- The live object at an address, if there is one. -/
def live (w : World) (a : Nat) : Option proxy_updater :=
  match w.heap[a]? with
  | some (some p) => some p
  | _ => none

/-- The reference a heap slot holds: none for an ended object or an empty
proxy. -/
def handleOf (slot : Option proxy_updater) : Option jref :=
  slot.bind (fun p => p.mjava_updater)

/-- The references held by the live proxies, in address order. -/
def handles (heap : List (Option proxy_updater)) : List jref :=
  heap.filterMap handleOf

/-- The number of live `proxy_updater` objects whose `mjava_updater` refers to
the Java object `F`. -/
def proxies (w : World) (F : Nat) : Nat :=
  w.heap.countP (fun slot =>
    match slot with
    | some { mjava_updater := some g } => decide (g.obj = F)
    | _ => false)

/-- One operation.  A constructor makes a new object at the next address; the
other operations act on live objects only (on anything else C++ gives them no
meaning, and the world is left as it is).  Destruction runs the destructor body
and ends the lifetime of the object. -/
def step (w : World) : Op → World
  | Op.construct java_updater ok =>
    let r := proxy_updater.constructor w.env ok java_updater
    { env := r.1, heap := w.heap ++ [some r.2] }
  | Op.construct_default =>
    { env := w.env, heap := w.heap ++ [some proxy_updater.default_constructor] }
  | Op.copy other ok =>
    match w.live other with
    | some oth =>
      let r := proxy_updater.copy_constructor w.env ok oth
      { env := r.1, heap := w.heap ++ [some r.2] }
    | none => w
  | Op.assign this other ok =>
    match w.live this, w.live other with
    | some self, some oth =>
      let r := proxy_updater.operator_assign w.env ok this other self oth
      { env := r.1, heap := w.heap.set this (some r.2) }
    | _, _ => w
  | Op.destroy this =>
    match w.live this with
    | some self =>
      { env := proxy_updater.destructor w.env self, heap := w.heap.set this none }
    | none => w

/-- A finite sequence of operations, first to last. -/
def run (w : World) (ops : List Op) : World :=
  ops.foldl step w

/-- The pins are exactly the references the live proxies hold (as multisets),
and no release was ever invalid. -/
def Inv (w : World) : Prop :=
  (∀ g, w.env.globals.count g = (handles w.heap).count g) ∧ w.env.invalidDeletes = 0

end World

/-- One when the reference designates the Java object `F`, zero otherwise (and
zero for `NULL`). -/
def refsTo (j : jobject) (F : Nat) : Nat :=
  match j with
  | some g => if g.obj = F then 1 else 0
  | none => 0

/-- The exception `operator()` throws in place of the one the callback raised
(lines 162-164). -/
def replacement : Throwable :=
  { cls := "java/lang/IllegalArgumentException", msg := "thrown from C code" }

/-- The calls of `operator()` from its first line up to and including the class
lookup of line 162, in order. -/
def fence_calls (self : proxy_updater) (java_method_id : jmethodID) (context : icontext_type) :
    List Action :=
  [Action.get_jni_env,
   Action.CallVoidMethod self.mjava_updater java_method_id context.addr context.vertex_data.app_id,
   Action.ExceptionOccurred,
   Action.logstream "Exception occured!!",
   Action.ExceptionDescribe,
   Action.ExceptionClear,
   Action.FindClass "java/lang/IllegalArgumentException"]

/-! ## Concrete inputs -/

namespace Example

/-- A context at address 100 whose current vertex has `app_id` 42. -/
def ctx : icontext_type :=
  { addr := 100, vertex_data := { app_id := 42 } }

/-- The first global reference a fresh thread hands out, on Java object 5. -/
def pinned : jref :=
  { id := 0, obj := 5 }

/-- A proxy holding `pinned`. -/
def proxy : proxy_updater :=
  { mjava_updater := some pinned }

/-- The thread after `proxy` was constructed from a local reference to object 5:
one pin, `pinned`. -/
def env : JNIEnv :=
  (proxy_updater.constructor JNIEnv.init true (some { id := 9, obj := 5 })).1

/-- What the raising callbacks below raise. -/
def boom : Throwable :=
  { cls := "java/lang/RuntimeException", msg := "boom" }

/-- A Java side whose callback completes normally. -/
def rt_normal : ForeignRuntime :=
  { callback := fun _ _ _ _ => none, loadable := fun _ => true, loadFailure := fun _ => none }

/-- A Java side whose callback raises, and where every class is found. -/
def rt_raise : ForeignRuntime :=
  { callback := fun _ _ _ _ => some boom, loadable := fun _ => true,
    loadFailure := fun _ => none }

/-- A Java side whose callback raises, and where no class is found and the
failed lookup leaves a `NoClassDefFoundError` pending. -/
def rt_raise_noclass_error : ForeignRuntime :=
  { callback := fun _ _ _ _ => some boom, loadable := fun _ => false,
    loadFailure := fun name => some { cls := "java/lang/NoClassDefFoundError", msg := name } }

/-- Two live proxies, at addresses 0 and 1, each with its own pin on object 5:
a bound construction and a copy of it. -/
def two : World :=
  World.init.run [Op.construct (some { id := 9, obj := 5 }) true, Op.copy 0 true]

end Example

/-! # Theorems -/

/-! ## Counting the references of a heap -/

theorem handles_append (h1 h2 : List (Option proxy_updater)) :
    World.handles (h1 ++ h2) = World.handles h1 ++ World.handles h2 := by
  simp [World.handles]

theorem handles_cons (s : Option proxy_updater) (h : List (Option proxy_updater)) :
    World.handles (s :: h) = (World.handleOf s).toList ++ World.handles h := by
  cases hs : World.handleOf s <;> simp [World.handles, List.filterMap_cons, hs]

theorem handleOf_some (p : proxy_updater) : World.handleOf (some p) = p.mjava_updater := rfl

theorem handleOf_none : World.handleOf none = none := rfl

theorem handles_single (p : proxy_updater) :
    World.handles [some p] = p.mjava_updater.toList := by
  rw [handles_cons, handleOf_some]; simp [World.handles]

theorem handles_set_count (a : jref) (s' : Option proxy_updater) :
    ∀ (heap : List (Option proxy_updater)) (i : Nat) (s : Option proxy_updater),
      heap[i]? = some s →
      (World.handles (heap.set i s')).count a + (World.handleOf s).toList.count a
        = (World.handles heap).count a + (World.handleOf s').toList.count a := by
  intro heap
  induction heap with
  | nil => intro i s h; simp at h
  | cons x xs ih =>
    intro i s h
    cases i with
    | zero =>
      simp at h
      subst h
      simp only [List.set_cons_zero, handles_cons, List.count_append]
      omega
    | succ j =>
      have := ih j s (by simpa using h)
      simp only [List.set_cons_succ, handles_cons, List.count_append]
      omega

theorem proxies_eq_countP (w : World) (F : Nat) :
    w.proxies F = (World.handles w.heap).countP (fun g => decide (g.obj = F)) := by
  unfold World.proxies
  generalize w.heap = heap
  induction heap with
  | nil => rfl
  | cons x xs ih =>
    rw [handles_cons, List.countP_append, List.countP_cons, ih]
    rcases x with _ | ⟨_ | g⟩
    · simp [World.handleOf]
    · simp [World.handleOf]
    · by_cases h : g.obj = F
      · simp [World.handleOf, List.countP_cons, h]; omega
      · simp [World.handleOf, List.countP_cons, h]

theorem live_eq_some (w : World) (a : Nat) (p : proxy_updater) (h : w.live a = some p) :
    w.heap[a]? = some (some p) := by
  unfold World.live at h
  split at h
  · rename_i q hq
    simp at h
    rw [hq, h]
  · simp at h

theorem handle_mem_of_get (heap : List (Option proxy_updater)) (i : Nat)
    (p : proxy_updater) (g : jref) (h : heap[i]? = some (some p))
    (hg : p.mjava_updater = some g) : g ∈ World.handles heap := by
  unfold World.handles
  rw [List.mem_filterMap]
  exact ⟨some p, List.getElem?_mem h, by simp [World.handleOf, hg]⟩

/-! ## The JNI functions and the pins -/

theorem get_jni_env_globals (env : JNIEnv) : (get_jni_env env).globals = env.globals := rfl

theorem get_jni_env_invalid (env : JNIEnv) :
    (get_jni_env env).invalidDeletes = env.invalidDeletes := rfl

theorem newGlobalRef_count (env : JNIEnv) (ok : Bool) (ref : jobject) (a : jref) :
    (env.NewGlobalRef ok ref).1.globals.count a
      = env.globals.count a + (env.NewGlobalRef ok ref).2.toList.count a := by
  unfold JNIEnv.NewGlobalRef
  rcases ref with _ | r
  · simp [JNIEnv.record]
  · cases ok <;> simp [JNIEnv.record, List.count_cons]

theorem newGlobalRef_invalid (env : JNIEnv) (ok : Bool) (ref : jobject) :
    (env.NewGlobalRef ok ref).1.invalidDeletes = env.invalidDeletes := by
  unfold JNIEnv.NewGlobalRef
  rcases ref with _ | r
  · simp [JNIEnv.record]
  · cases ok <;> simp [JNIEnv.record]

theorem deleteGlobalRef_count (env : JNIEnv) (ref : jobject) (a : jref)
    (hlive : ∀ g, ref = some g → g ∈ env.globals) :
    (env.DeleteGlobalRef ref).globals.count a + ref.toList.count a = env.globals.count a := by
  unfold JNIEnv.DeleteGlobalRef
  rcases ref with _ | g
  · simp [JNIEnv.record]
  · have hg : g ∈ env.globals := hlive g rfl
    simp only [hg, if_true, Option.toList_some, List.count_erase]
    by_cases h : a = g
    · subst h
      have : 0 < env.globals.count a := List.count_pos_iff.mpr hg
      simp
      omega
    · have h2 : (a == g) = false := by simpa using h
      have h3 : ¬ g = a := fun e => h e.symm
      simp [h2, List.count_cons, h, h3]

theorem deleteGlobalRef_invalid (env : JNIEnv) (ref : jobject)
    (hlive : ∀ g, ref = some g → g ∈ env.globals) :
    (env.DeleteGlobalRef ref).invalidDeletes = env.invalidDeletes := by
  unfold JNIEnv.DeleteGlobalRef
  rcases ref with _ | g
  · simp [JNIEnv.record]
  · simp [hlive g rfl]

/-! ## The member functions and the pins -/

theorem assign_acquire_count (env : JNIEnv) (ok : Bool) (oth : proxy_updater) (a : jref) :
    (proxy_updater.assign_acquire env ok oth).1.globals.count a
      = env.globals.count a + (proxy_updater.assign_acquire env ok oth).2.toList.count a := by
  unfold proxy_updater.assign_acquire
  split
  · exact newGlobalRef_count _ _ _ _
  · simp

theorem assign_acquire_invalid (env : JNIEnv) (ok : Bool) (oth : proxy_updater) :
    (proxy_updater.assign_acquire env ok oth).1.invalidDeletes = env.invalidDeletes := by
  unfold proxy_updater.assign_acquire
  split
  · exact newGlobalRef_invalid _ _ _
  · rfl

theorem assign_release_count (env : JNIEnv) (self : proxy_updater) (a : jref)
    (hlive : ∀ g, self.mjava_updater = some g → g ∈ env.globals) :
    (proxy_updater.assign_release env self).globals.count a
      + self.mjava_updater.toList.count a = env.globals.count a := by
  unfold proxy_updater.assign_release
  split
  · exact deleteGlobalRef_count _ _ a hlive
  · rename_i hnn
    have : self.mjava_updater = none := by simpa using hnn
    simp [this]

theorem assign_release_invalid (env : JNIEnv) (self : proxy_updater)
    (hlive : ∀ g, self.mjava_updater = some g → g ∈ env.globals) :
    (proxy_updater.assign_release env self).invalidDeletes = env.invalidDeletes := by
  unfold proxy_updater.assign_release
  split
  · exact deleteGlobalRef_invalid _ _ hlive
  · rfl

theorem copy_constructor_count (env : JNIEnv) (ok : Bool) (oth : proxy_updater) (a : jref) :
    (proxy_updater.copy_constructor env ok oth).1.globals.count a
      = env.globals.count a
        + (proxy_updater.copy_constructor env ok oth).2.mjava_updater.toList.count a := by
  unfold proxy_updater.copy_constructor
  split
  · simp
  · exact newGlobalRef_count _ _ _ _

theorem copy_constructor_invalid (env : JNIEnv) (ok : Bool) (oth : proxy_updater) :
    (proxy_updater.copy_constructor env ok oth).1.invalidDeletes = env.invalidDeletes := by
  unfold proxy_updater.copy_constructor
  split
  · rfl
  · exact newGlobalRef_invalid _ _ _

theorem destructor_count (env : JNIEnv) (self : proxy_updater) (a : jref)
    (hlive : ∀ g, self.mjava_updater = some g → g ∈ env.globals) :
    (proxy_updater.destructor env self).globals.count a
      + self.mjava_updater.toList.count a = env.globals.count a := by
  unfold proxy_updater.destructor
  split
  · rename_i hn; simp [hn]
  · exact deleteGlobalRef_count (get_jni_env env) _ a hlive

theorem destructor_invalid (env : JNIEnv) (self : proxy_updater)
    (hlive : ∀ g, self.mjava_updater = some g → g ∈ env.globals) :
    (proxy_updater.destructor env self).invalidDeletes = env.invalidDeletes := by
  unfold proxy_updater.destructor
  split
  · rfl
  · exact deleteGlobalRef_invalid (get_jni_env env) _ hlive

theorem operator_assign_count (env : JNIEnv) (ok : Bool) (t o : Nat)
    (self oth : proxy_updater) (a : jref)
    (hlive : ∀ g, self.mjava_updater = some g → g ∈ env.globals) :
    (proxy_updater.operator_assign env ok t o self oth).1.globals.count a
      + self.mjava_updater.toList.count a
      = env.globals.count a
        + (proxy_updater.operator_assign env ok t o self oth).2.mjava_updater.toList.count a := by
  unfold proxy_updater.operator_assign
  split
  · have hacq := assign_acquire_count (get_jni_env env) ok oth
    have hlive2 : ∀ g, self.mjava_updater = some g →
        g ∈ (proxy_updater.assign_acquire (get_jni_env env) ok oth).1.globals := by
      intro g hg
      apply List.count_pos_iff.mp
      have := List.count_pos_iff.mpr (hlive g hg)
      rw [hacq g, get_jni_env_globals]; omega
    have hrel := assign_release_count _ self a hlive2
    have := hacq a
    rw [get_jni_env_globals] at this
    simp only []
    omega
  · simp

theorem operator_assign_invalid (env : JNIEnv) (ok : Bool) (t o : Nat)
    (self oth : proxy_updater)
    (hlive : ∀ g, self.mjava_updater = some g → g ∈ env.globals) :
    (proxy_updater.operator_assign env ok t o self oth).1.invalidDeletes
      = env.invalidDeletes := by
  unfold proxy_updater.operator_assign
  split
  · have hacq := assign_acquire_count (get_jni_env env) ok oth
    have hlive2 : ∀ g, self.mjava_updater = some g →
        g ∈ (proxy_updater.assign_acquire (get_jni_env env) ok oth).1.globals := by
      intro g hg
      apply List.count_pos_iff.mp
      have := List.count_pos_iff.mpr (hlive g hg)
      rw [hacq g, get_jni_env_globals]; omega
    simp only []
    rw [assign_release_invalid _ _ hlive2, assign_acquire_invalid, get_jni_env_invalid]
  · rfl

/-! ## The invariant -/

theorem inv_live_handle (w : World) (hw : w.Inv) (t : Nat) (self : proxy_updater)
    (hl : w.live t = some self) :
    ∀ g, self.mjava_updater = some g → g ∈ w.env.globals := by
  intro g hg
  apply List.count_pos_iff.mp
  rw [hw.1 g]
  exact List.count_pos_iff.mpr (handle_mem_of_get w.heap t self g (live_eq_some w t self hl) hg)

theorem inv_step (w : World) (op : Op) (hw : w.Inv) : (w.step op).Inv := by
  have hc := hw.1
  have hi := hw.2
  cases op with
  | construct j ok =>
    refine ⟨fun a => ?_, ?_⟩
    · simp only [World.step, proxy_updater.constructor, handles_append, handles_single,
        List.count_append]
      rw [newGlobalRef_count, hc a]
    · simp only [World.step, proxy_updater.constructor]
      rw [newGlobalRef_invalid, hi]
  | construct_default =>
    refine ⟨fun a => ?_, hi⟩
    simp [World.step, proxy_updater.default_constructor, handles_append, handles_single, hc a]
  | copy o ok =>
    simp only [World.step]
    split
    · rename_i oth hl
      refine ⟨fun a => ?_, ?_⟩
      · simp only [handles_append, handles_single, List.count_append]
        rw [copy_constructor_count, hc a]
      · simp only []
        rw [copy_constructor_invalid, hi]
    · exact hw
  | assign t o ok =>
    simp only [World.step]
    split
    · rename_i self oth hl hl2
      have hlive := inv_live_handle w hw t self hl
      have hget := live_eq_some w t self hl
      refine ⟨fun a => ?_, ?_⟩
      · have hs := handles_set_count a
          (some (proxy_updater.operator_assign w.env ok t o self oth).2) w.heap t (some self) hget
        have ha := operator_assign_count w.env ok t o self oth a hlive
        have := hc a
        simp only [handleOf_some] at hs
        simp only []
        omega
      · simp only []
        rw [operator_assign_invalid _ _ _ _ _ _ hlive, hi]
    · exact hw
  | destroy t =>
    simp only [World.step]
    split
    · rename_i self hl
      have hlive := inv_live_handle w hw t self hl
      have hget := live_eq_some w t self hl
      refine ⟨fun a => ?_, ?_⟩
      · have hs := handles_set_count a none w.heap t (some self) hget
        have hd := destructor_count w.env self a hlive
        have := hc a
        simp only [handleOf_some, handleOf_none, Option.toList_none, List.count_nil] at hs
        simp only []
        omega
      · simp only []
        rw [destructor_invalid _ _ hlive, hi]
    · exact hw

theorem inv_init : World.init.Inv := by
  refine ⟨fun g => ?_, rfl⟩
  simp [World.init, JNIEnv.init, World.handles]

theorem inv_run (ops : List Op) : ∀ w : World, w.Inv → (w.run ops).Inv := by
  induction ops with
  | nil => intro w h; exact h
  | cons op rest ih => intro w h; exact ih (w.step op) (inv_step w op h)

theorem inv_pins (w : World) (h : w.Inv) (F : Nat) : w.env.pins F = w.proxies F := by
  rw [proxies_eq_countP]
  unfold JNIEnv.pins
  exact List.Perm.countP_eq _ (List.perm_iff_count.mpr h.1)

/-! ## Counting pins per Java object -/

theorem toList_countP_refsTo (j : jobject) (F : Nat) :
    j.toList.countP (fun g => decide (g.obj = F)) = refsTo j F := by
  rcases j with _ | g
  · rfl
  · by_cases h : g.obj = F <;> simp [refsTo, h]

theorem countP_of_count (l1 x l2 y : List jref)
    (h : ∀ a, l1.count a + x.count a = l2.count a + y.count a) (p : jref → Bool) :
    l1.countP p + x.countP p = l2.countP p + y.countP p := by
  have hp : (l1 ++ x).Perm (l2 ++ y) :=
    List.perm_iff_count.mpr (fun a => by simp [List.count_append, h a])
  have := hp.countP_eq p
  simpa [List.countP_append] using this

theorem set_self (heap : List (Option proxy_updater)) (i : Nat) (s : Option proxy_updater)
    (h : heap[i]? = some s) : heap.set i s = heap := by
  apply List.ext_getElem?
  intro j
  by_cases hij : i = j
  · subst hij
    rw [List.getElem?_set_self', h]
    simp
  · rw [List.getElem?_set_ne hij]

theorem newGlobalRef_pins (env : JNIEnv) (ok : Bool) (ref : jobject) (F : Nat) :
    (env.NewGlobalRef ok ref).1.pins F = env.pins F + refsTo (env.NewGlobalRef ok ref).2 F := by
  have := countP_of_count (env.NewGlobalRef ok ref).1.globals [] env.globals
    (env.NewGlobalRef ok ref).2.toList (fun a => by simpa using newGlobalRef_count env ok ref a)
    (fun g => decide (g.obj = F))
  rw [toList_countP_refsTo] at this
  simpa [JNIEnv.pins] using this

theorem deleteGlobalRef_pins (env : JNIEnv) (ref : jobject) (F : Nat)
    (hlive : ∀ g, ref = some g → g ∈ env.globals) :
    (env.DeleteGlobalRef ref).pins F + refsTo ref F = env.pins F := by
  have := countP_of_count (env.DeleteGlobalRef ref).globals ref.toList env.globals []
    (fun a => by simpa using deleteGlobalRef_count env ref a hlive)
    (fun g => decide (g.obj = F))
  rw [toList_countP_refsTo] at this
  simpa [JNIEnv.pins] using this

theorem get_jni_env_pins (env : JNIEnv) (F : Nat) : (get_jni_env env).pins F = env.pins F := rfl

theorem destructor_pins (env : JNIEnv) (self : proxy_updater) (F : Nat)
    (hlive : ∀ g, self.mjava_updater = some g → g ∈ env.globals) :
    (proxy_updater.destructor env self).pins F + refsTo self.mjava_updater F = env.pins F := by
  unfold proxy_updater.destructor
  split
  · rename_i hn; simp [hn, refsTo]
  · exact deleteGlobalRef_pins (get_jni_env env) _ F hlive

theorem copy_step_keeps_heap (w : World) (o : Nat) (ok : Bool) :
    (w.step (Op.copy o ok)).heap.take w.heap.length = w.heap := by
  simp only [World.step]
  split
  · simp
  · simp

theorem live_set_self (w : World) (env : JNIEnv) (a : Nat) (p q : proxy_updater)
    (h : w.live a = some p) :
    World.live { env := env, heap := w.heap.set a (some q) } a = some q := by
  have hget := live_eq_some w a p h
  have hlt : a < w.heap.length := by
    rcases Nat.lt_or_ge a w.heap.length with h1 | h1
    · exact h1
    · rw [List.getElem?_eq_none h1] at hget; cases hget
  simp [World.live, List.getElem?_set_self hlt]

theorem live_set_ne (w : World) (env : JNIEnv) (a b : Nat) (s : Option proxy_updater)
    (hne : a ≠ b) :
    World.live { env := env, heap := w.heap.set a s } b = w.live b := by
  simp [World.live, List.getElem?_set_ne hne]

theorem assign_acquire_pins (env : JNIEnv) (ok : Bool) (oth : proxy_updater) (F : Nat) :
    (proxy_updater.assign_acquire env ok oth).1.pins F
      = env.pins F + refsTo (proxy_updater.assign_acquire env ok oth).2 F := by
  unfold proxy_updater.assign_acquire
  split
  · exact newGlobalRef_pins _ _ _ _
  · simp [refsTo]

theorem assign_release_pins (env : JNIEnv) (self : proxy_updater) (F : Nat)
    (hlive : ∀ g, self.mjava_updater = some g → g ∈ env.globals) :
    (proxy_updater.assign_release env self).pins F + refsTo self.mjava_updater F
      = env.pins F := by
  unfold proxy_updater.assign_release
  split
  · exact deleteGlobalRef_pins _ _ F hlive
  · rename_i hnn
    have : self.mjava_updater = none := by simpa using hnn
    simp [this, refsTo]

theorem assign_acquire_result (env : JNIEnv) (ok : Bool) (oth : proxy_updater) :
    (proxy_updater.assign_acquire env ok oth).2
      = (if ok then oth.mjava_updater.map (fun gb => { id := env.next, obj := gb.obj })
         else none) := by
  rcases h : oth.mjava_updater with _ | gb
  · cases ok <;> simp [proxy_updater.assign_acquire, h]
  · cases ok <;> simp [proxy_updater.assign_acquire, h, JNIEnv.NewGlobalRef]

theorem assign_acquire_mem (env : JNIEnv) (ok : Bool) (oth : proxy_updater) (g : jref)
    (h : g ∈ env.globals) : g ∈ (proxy_updater.assign_acquire env ok oth).1.globals := by
  apply List.count_pos_iff.mp
  have := List.count_pos_iff.mpr h
  rw [assign_acquire_count]
  omega

/-! ## What `operator()` computes -/

theorem operator_call_raised (self : proxy_updater) (rt : ForeignRuntime)
    (mid : jmethodID) (env : JNIEnv) (context : icontext_type) (e : Throwable)
    (hraise : rt.callback self.mjava_updater mid context.addr context.vertex_data.app_id = some e) :
    self.operator_call rt mid env context =
      if rt.loadable "java/lang/IllegalArgumentException" then
        { env with pending := some replacement,
                   trace := env.trace ++ fence_calls self mid context
                     ++ [Action.ThrowNew "java/lang/IllegalArgumentException" "thrown from C code"] }
      else
        { env with pending := rt.loadFailure "java/lang/IllegalArgumentException",
                   trace := env.trace ++ fence_calls self mid context } := by
  unfold proxy_updater.operator_call
  simp only [JNIEnv.ExceptionOccurred, JNIEnv.CallVoidMethod, hraise, get_jni_env, JNIEnv.record,
    JNIEnv.logstream, JNIEnv.ExceptionDescribe, JNIEnv.ExceptionClear, JNIEnv.FindClass]
  by_cases hl : rt.loadable "java/lang/IllegalArgumentException" = true
  · simp [hl, JNIEnv.ThrowNew, JNIEnv.record, fence_calls, replacement]
  · simp [hl, fence_calls]

theorem operator_call_normal (self : proxy_updater) (rt : ForeignRuntime)
    (mid : jmethodID) (env : JNIEnv) (context : icontext_type)
    (hnormal : rt.callback self.mjava_updater mid context.addr context.vertex_data.app_id = none) :
    self.operator_call rt mid env context =
      { env with pending := none,
                 trace := env.trace ++ [Action.get_jni_env,
                   Action.CallVoidMethod self.mjava_updater mid context.addr
                     context.vertex_data.app_id,
                   Action.ExceptionOccurred] } := by
  unfold proxy_updater.operator_call
  simp [JNIEnv.ExceptionOccurred, JNIEnv.CallVoidMethod, hnormal, get_jni_env, JNIEnv.record]

/-! ## C1: pins and live proxies -/

/-- C1. From a world with no proxies and no pins, after every operation of every
finite sequence of bound constructions, default constructions, copy
constructions, assignments and destructions (every prefix `ops.take k` of every
sequence `ops`, whatever `NewGlobalRef` answers), the number of live global
references on a Java object `F` equals the number of live `proxy_updater`
objects whose `mjava_updater` refers to `F`, and no `DeleteGlobalRef` was ever
given a reference that was not live (no pin leaked, none released twice). -/
theorem C1_pins_equal_live_proxies (ops : List Op) (k : Nat) (F : Nat) :
    (World.init.run (ops.take k)).env.pins F = (World.init.run (ops.take k)).proxies F
    ∧ (World.init.run (ops.take k)).env.invalidDeletes = 0 :=
  ⟨inv_pins _ (inv_run _ _ inv_init) F, (inv_run _ _ inv_init).2⟩

/-! ## C2, C3: the exception fence -/

/-- C2, counterexample.  The callback of `Example.rt_raise` raises; the class of
the replacement is found; when `operator()` returns, the thread has an
exception pending: the `IllegalArgumentException` of line 164. -/
theorem C2_counterexample :
    Example.rt_raise.callback Example.proxy.mjava_updater 7 Example.ctx.addr
        Example.ctx.vertex_data.app_id = some Example.boom
    ∧ (Example.proxy.operator_call Example.rt_raise 7 Example.env Example.ctx).pending
        = some { cls := "java/lang/IllegalArgumentException", msg := "thrown from C code" } := by
  decide

/-- C2, amended.  For every proxy (non-empty ones included) and every context,
if the callback raises an exception during `operator()(context)`, then
`operator()` calls `ExceptionClear` exactly once, and what is pending when it
returns does not depend on what the callback raised: it is the replacement
`IllegalArgumentException("thrown from C code")` when that class is found, and
otherwise whatever the failed `FindClass` left. -/
theorem C2_fence_clears_then_replaces (self : proxy_updater) (rt : ForeignRuntime)
    (mid : jmethodID) (env : JNIEnv) (context : icontext_type) (e : Throwable)
    (hraise : rt.callback self.mjava_updater mid context.addr context.vertex_data.app_id = some e) :
    ((self.operator_call rt mid env context).trace.drop env.trace.length).count
        Action.ExceptionClear = 1
    ∧ (self.operator_call rt mid env context).pending
        = (if rt.loadable "java/lang/IllegalArgumentException" then some replacement
           else rt.loadFailure "java/lang/IllegalArgumentException") := by
  rw [operator_call_raised self rt mid env context e hraise]
  by_cases hl : rt.loadable "java/lang/IllegalArgumentException" = true
  · simp [hl, fence_calls, List.append_assoc]
  · simp [hl, fence_calls]

/-- C2, amended, at `Example.proxy` with a raising callback. -/
theorem C2_fence_clears_then_replaces_witness :
    Example.rt_raise.callback Example.proxy.mjava_updater 7 Example.ctx.addr
        Example.ctx.vertex_data.app_id = some Example.boom
    ∧ ((Example.proxy.operator_call Example.rt_raise 7 Example.env Example.ctx).trace.drop
        Example.env.trace.length).count Action.ExceptionClear = 1
    ∧ (Example.proxy.operator_call Example.rt_raise 7 Example.env Example.ctx).pending
        = (if Example.rt_raise.loadable "java/lang/IllegalArgumentException" then some replacement
           else Example.rt_raise.loadFailure "java/lang/IllegalArgumentException") :=
  ⟨by decide,
    C2_fence_clears_then_replaces Example.proxy Example.rt_raise 7 Example.env Example.ctx
      Example.boom (by decide)⟩

/-- C3.  On a Java runtime that keeps the JNI contract of `FindClass`, for every
proxy (non-empty ones included) and every context: if the callback raises an
exception during `operator()(context)`, then `operator()` returns with an
exception pending on the thread, which is how this `void` function reports to
its caller.  That holds in every outcome of the fence: when the replacement
class is found, the last call is `ThrowNew` and its
`IllegalArgumentException("thrown from C code")` is pending; when it is not
found, `operator()` returns at line 163 right after `FindClass`, with the error
of the failed lookup pending.  In no outcome is the thread left as after a
successful update (nothing pending). -/
theorem C3_raising_callback_always_reported (self : proxy_updater) (rt : ForeignRuntime)
    (mid : jmethodID) (env : JNIEnv) (context : icontext_type) (e : Throwable)
    (hraise : rt.callback self.mjava_updater mid context.addr context.vertex_data.app_id = some e)
    (hjni : rt.conforms) :
    (self.operator_call rt mid env context).pending.isSome = true
    ∧ (self.operator_call rt mid env context).pending ≠ none
    ∧ (self.operator_call rt mid env context).pending
        = (if rt.loadable "java/lang/IllegalArgumentException" then some replacement
           else rt.loadFailure "java/lang/IllegalArgumentException")
    ∧ (self.operator_call rt mid env context).trace
        = env.trace ++ fence_calls self mid context
          ++ (if rt.loadable "java/lang/IllegalArgumentException"
              then [Action.ThrowNew "java/lang/IllegalArgumentException" "thrown from C code"]
              else []) := by
  rw [operator_call_raised self rt mid env context e hraise]
  by_cases hl : rt.loadable "java/lang/IllegalArgumentException" = true
  · simp [hl]
  · have hf : rt.loadable "java/lang/IllegalArgumentException" = false := by simpa using hl
    have hsome := hjni "java/lang/IllegalArgumentException" hf
    refine ⟨by simpa [hf] using hsome, ?_, by simp [hf], by simp [hf]⟩
    intro hnone
    simp only [hf] at hnone
    rw [show rt.loadFailure "java/lang/IllegalArgumentException" = none from hnone] at hsome
    cases hsome

/-- C3 at `Example.proxy` with a raising callback, where the replacement class
is not found and the failed lookup leaves a `NoClassDefFoundError`: that error
is pending on return, and nothing was thrown by `operator()` itself. -/
theorem C3_raising_callback_always_reported_witness :
    Example.rt_raise_noclass_error.callback Example.proxy.mjava_updater 7 Example.ctx.addr
        Example.ctx.vertex_data.app_id = some Example.boom
    ∧ Example.rt_raise_noclass_error.conforms
    ∧ (Example.proxy.operator_call Example.rt_raise_noclass_error 7 Example.env
        Example.ctx).pending.isSome = true
    ∧ (Example.proxy.operator_call Example.rt_raise_noclass_error 7 Example.env
        Example.ctx).pending
        = some { cls := "java/lang/NoClassDefFoundError",
                 msg := "java/lang/IllegalArgumentException" }
    ∧ (Example.proxy.operator_call Example.rt_raise_noclass_error 7 Example.env
        Example.ctx).trace
        = Example.env.trace ++ fence_calls Example.proxy 7 Example.ctx :=
  ⟨by decide, fun _ _ => rfl,
    (C3_raising_callback_always_reported Example.proxy Example.rt_raise_noclass_error 7
      Example.env Example.ctx Example.boom (by decide) (fun _ _ => rfl)).1,
    by decide, by decide⟩

/-! ## C4: invoking an empty proxy -/

/-- C4, counterexample.  `operator()` on a default-constructed proxy: the
dispatch target is called, with a `NULL` receiver, and with a callback that
raises nothing `operator()` returns as after a successful update. -/
theorem C4_counterexample :
    proxy_updater.default_constructor.mjava_updater = none
    ∧ (proxy_updater.default_constructor.operator_call Example.rt_normal 7 JNIEnv.init
        Example.ctx).trace
        = [Action.get_jni_env, Action.CallVoidMethod none 7 100 42, Action.ExceptionOccurred]
    ∧ (proxy_updater.default_constructor.operator_call Example.rt_normal 7 JNIEnv.init
        Example.ctx).pending = none := by
  decide

/-- C4, amended.  `operator()` makes no check of `mjava_updater`: on an empty
proxy it calls `CallVoidMethod` with a `NULL` receiver and the fixed method id,
passing the context and the `app_id`, then asks `ExceptionOccurred` as for any
proxy; it returns with an exception pending only if that call left one (then
the fence of C2 and C3 runs). -/
theorem C4_empty_proxy_still_dispatches (self : proxy_updater) (rt : ForeignRuntime)
    (mid : jmethodID) (env : JNIEnv) (context : icontext_type)
    (hempty : self.mjava_updater = none) :
    (∃ rest, (self.operator_call rt mid env context).trace
        = env.trace ++ [Action.get_jni_env,
            Action.CallVoidMethod none mid context.addr context.vertex_data.app_id,
            Action.ExceptionOccurred] ++ rest)
    ∧ (self.operator_call rt mid env context).pending
        = (match rt.callback none mid context.addr context.vertex_data.app_id with
           | none => none
           | some _ =>
             if rt.loadable "java/lang/IllegalArgumentException" then some replacement
             else rt.loadFailure "java/lang/IllegalArgumentException") := by
  rcases hc : rt.callback none mid context.addr context.vertex_data.app_id with _ | e
  · rw [operator_call_normal self rt mid env context (by rw [hempty]; exact hc)]
    exact ⟨⟨[], by simp [hempty]⟩, rfl⟩
  · rw [operator_call_raised self rt mid env context e (by rw [hempty]; exact hc)]
    by_cases hl : rt.loadable "java/lang/IllegalArgumentException" = true
    · exact ⟨⟨_, by simp [hl, fence_calls, hempty]; rfl⟩, by simp [hl]⟩
    · exact ⟨⟨_, by simp [hl, fence_calls, hempty]; rfl⟩, by simp [hl]⟩

/-- C4, amended, at the default-constructed proxy. -/
theorem C4_empty_proxy_still_dispatches_witness :
    proxy_updater.default_constructor.mjava_updater = none
    ∧ ((∃ rest, (proxy_updater.default_constructor.operator_call Example.rt_raise 7 Example.env
          Example.ctx).trace
        = Example.env.trace ++ [Action.get_jni_env,
            Action.CallVoidMethod none 7 Example.ctx.addr Example.ctx.vertex_data.app_id,
            Action.ExceptionOccurred] ++ rest)
      ∧ (proxy_updater.default_constructor.operator_call Example.rt_raise 7 Example.env
          Example.ctx).pending
        = (match Example.rt_raise.callback none 7 Example.ctx.addr
              Example.ctx.vertex_data.app_id with
           | none => none
           | some _ =>
             if Example.rt_raise.loadable "java/lang/IllegalArgumentException"
             then some replacement
             else Example.rt_raise.loadFailure "java/lang/IllegalArgumentException")) :=
  ⟨rfl,
    C4_empty_proxy_still_dispatches proxy_updater.default_constructor Example.rt_raise 7
      Example.env Example.ctx rfl⟩

/-! ## C5: a pin that cannot be acquired -/

/-- C5, counterexample.  With a `NewGlobalRef` that fails, the bound
construction, the copy construction from the non-empty `Example.proxy` and the
assignment from it all complete and leave the proxy with a `NULL` handle; no
exception is pending afterwards. -/
theorem C5_counterexample :
    (proxy_updater.constructor JNIEnv.init false (some { id := 9, obj := 5 })).2.mjava_updater
        = none
    ∧ Example.proxy.mjava_updater = some { id := 0, obj := 5 }
    ∧ (proxy_updater.copy_constructor Example.env false Example.proxy).2.mjava_updater = none
    ∧ (proxy_updater.operator_assign Example.env false 1 0 proxy_updater.default_constructor
        Example.proxy).2.mjava_updater = none
    ∧ (proxy_updater.constructor JNIEnv.init false (some { id := 9, obj := 5 })).1.pending
        = none := by
  decide

/-- C5, amended.  If `NewGlobalRef` fails (returns `NULL`) during a bound
construction, a copy construction from a non-empty source, or an assignment
from a non-empty source to another object, the operation completes normally and
leaves the `proxy_updater` empty (`NULL` handle).  Nothing but the trace of the
thread changes in the two constructions (no pin, no pending exception); the
assignment goes on to release the old pin of its target. -/
theorem C5_failed_pin_leaves_empty (env : JNIEnv) (r g : jref) (self oth : proxy_updater)
    (t o : Nat) (hne : t ≠ o) (hsrc : oth.mjava_updater = some g) :
    proxy_updater.constructor env false (some r)
        = (env.record (Action.NewGlobalRef (some r) none), { mjava_updater := none })
    ∧ proxy_updater.copy_constructor env false oth
        = ((get_jni_env env).record (Action.NewGlobalRef (some g) none),
           { mjava_updater := none })
    ∧ proxy_updater.operator_assign env false t o self oth
        = (proxy_updater.assign_release
            ((get_jni_env env).record (Action.NewGlobalRef (some g) none)) self,
           { mjava_updater := none })
    ∧ (env.record (Action.NewGlobalRef (some r) none)).globals = env.globals
    ∧ (env.record (Action.NewGlobalRef (some r) none)).pending = env.pending
    ∧ ((get_jni_env env).record (Action.NewGlobalRef (some g) none)).globals = env.globals
    ∧ ((get_jni_env env).record (Action.NewGlobalRef (some g) none)).pending = env.pending := by
  refine ⟨?_, ?_, ?_, rfl, rfl, rfl, rfl⟩
  · simp [proxy_updater.constructor, JNIEnv.NewGlobalRef]
  · simp [proxy_updater.copy_constructor, JNIEnv.NewGlobalRef, hsrc]
  · simp [proxy_updater.operator_assign, proxy_updater.assign_acquire, JNIEnv.NewGlobalRef,
      hsrc, hne]

/-- C5, amended, at an assignment from `Example.proxy` (at address 0) to an empty
proxy at address 1. -/
theorem C5_failed_pin_leaves_empty_witness :
    (1 : Nat) ≠ 0
    ∧ Example.proxy.mjava_updater = some Example.pinned
    ∧ proxy_updater.operator_assign Example.env false 1 0 proxy_updater.default_constructor
        Example.proxy
        = (proxy_updater.assign_release
            ((get_jni_env Example.env).record
              (Action.NewGlobalRef (some Example.pinned) none))
            proxy_updater.default_constructor,
           { mjava_updater := none }) :=
  ⟨by decide, rfl,
    (C5_failed_pin_leaves_empty Example.env { id := 9, obj := 5 } Example.pinned
      proxy_updater.default_constructor Example.proxy 1 0 (by decide) rfl).2.2.1⟩

/-! ## C6: copy construction -/

/-- C6.  Copy construction from an empty proxy returns an empty proxy and leaves
the thread exactly as it was (no call at all).  Copy construction from a proxy
holding the live pin `g` on `F = g.obj`, with `NewGlobalRef` succeeding, returns
a proxy holding a reference to the same `F` that was not a pin before; the pins
afterwards are that reference and the old ones, so the count of `F` is one
higher and every other count is unchanged; no object that existed before the
copy is changed (the source keeps its handle).  Destroying the source afterwards
removes `g` only: the reference of the copy stays, every count is back to what it
was before the copy (one, for `F`, when the source held its only pin), and no
release was invalid. -/
theorem C6_copy_is_independent_pin (env : JNIEnv) (other : proxy_updater) (g : jref)
    (ok : Bool) (w : World) (o : Nat)
    (hsrc : other.mjava_updater = some g) (hlive : g ∈ env.globals)
    (hfresh : ∀ h ∈ env.globals, h.id < env.next) :
    proxy_updater.copy_constructor env ok { mjava_updater := none }
        = (env, { mjava_updater := none })
    ∧ (proxy_updater.copy_constructor env true other).2.mjava_updater
        = some { id := env.next, obj := g.obj }
    ∧ ({ id := env.next, obj := g.obj } : jref) ∉ env.globals
    ∧ (proxy_updater.copy_constructor env true other).1.globals
        = { id := env.next, obj := g.obj } :: env.globals
    ∧ (∀ F, (proxy_updater.copy_constructor env true other).1.pins F
        = env.pins F + refsTo (some g) F)
    ∧ (w.step (Op.copy o ok)).heap.take w.heap.length = w.heap
    ∧ (proxy_updater.destructor (proxy_updater.copy_constructor env true other).1 other).globals
        = { id := env.next, obj := g.obj } :: env.globals.erase g
    ∧ (∀ F, (proxy_updater.destructor
        (proxy_updater.copy_constructor env true other).1 other).pins F = env.pins F)
    ∧ (proxy_updater.destructor
        (proxy_updater.copy_constructor env true other).1 other).invalidDeletes
        = env.invalidDeletes := by
  have hnew : ({ id := env.next, obj := g.obj } : jref) ∉ env.globals := by
    intro hmem
    have := hfresh _ hmem
    simp at this
  have hne : ¬ (({ id := env.next, obj := g.obj } : jref) = g) := by
    intro e
    exact hnew (e ▸ hlive)
  have hne2 : ¬ (g = ({ id := env.next, obj := g.obj } : jref)) := fun e => hne e.symm
  have hcopy : proxy_updater.copy_constructor env true other
      = ({ env with globals := { id := env.next, obj := g.obj } :: env.globals,
                    next := env.next + 1,
                    trace := env.trace ++ [Action.get_jni_env,
                      Action.NewGlobalRef (some g) (some { id := env.next, obj := g.obj })] },
         { mjava_updater := some { id := env.next, obj := g.obj } }) := by
    simp [proxy_updater.copy_constructor, hsrc, JNIEnv.NewGlobalRef, get_jni_env, JNIEnv.record]
  have hdel : (proxy_updater.destructor (proxy_updater.copy_constructor env true other).1
      other).globals = { id := env.next, obj := g.obj } :: env.globals.erase g := by
    rw [hcopy]
    simp [proxy_updater.destructor, hsrc, JNIEnv.DeleteGlobalRef, get_jni_env, JNIEnv.record,
      hlive, hne, hne2]
  have hpins : ∀ F, (proxy_updater.copy_constructor env true other).1.pins F
      = env.pins F + refsTo (some g) F := by
    intro F
    rw [hcopy]
    by_cases hF : g.obj = F <;> simp [JNIEnv.pins, refsTo, hF, List.countP_cons]
  have hlive2 : ∀ h, other.mjava_updater = some h →
      h ∈ (proxy_updater.copy_constructor env true other).1.globals := by
    intro h hh
    rw [hsrc] at hh
    cases hh
    rw [hcopy]
    exact List.mem_cons_of_mem _ hlive
  refine ⟨by simp [proxy_updater.copy_constructor], by rw [hcopy], hnew, by rw [hcopy], hpins,
    copy_step_keeps_heap w o ok, hdel, ?_, ?_⟩
  · intro F
    have h1 := destructor_pins (proxy_updater.copy_constructor env true other).1 other F hlive2
    have h2 := hpins F
    rw [hsrc] at h1
    omega
  · rw [destructor_invalid _ _ hlive2, copy_constructor_invalid]

/-- C6 at `Example.proxy`, the only pin on object 5: two pins after the copy, and
after the source is destroyed one pin, the one of the copy. -/
theorem C6_copy_is_independent_pin_witness :
    Example.proxy.mjava_updater = some Example.pinned
    ∧ Example.pinned ∈ Example.env.globals
    ∧ (∀ h ∈ Example.env.globals, h.id < Example.env.next)
    ∧ Example.env.pins 5 = 1
    ∧ (proxy_updater.copy_constructor Example.env true Example.proxy).1.pins 5 = 2
    ∧ (proxy_updater.destructor
        (proxy_updater.copy_constructor Example.env true Example.proxy).1
        Example.proxy).globals = [{ id := 1, obj := 5 }]
    ∧ (proxy_updater.copy_constructor Example.env true Example.proxy).2.mjava_updater
        = some { id := Example.env.next, obj := Example.pinned.obj } :=
  ⟨by decide, by decide, by decide, by decide, by decide, by decide,
    (C6_copy_is_independent_pin Example.env Example.proxy Example.pinned true World.init 0
      (by decide) (by decide) (by decide)).2.1⟩

/-! ## C7: self-assignment -/

/-- C7.  For every object address `a` (holding an empty proxy, a non-empty one,
or none), the self-assignment `a = a` leaves the whole world as it was: the
handle of `a`, every pin and so every pin count, and the trace (no call, hence no
pin and no unpin).  At the level of the member function: with `this == &other`,
`operator=` returns the thread and the proxy it was given. -/
theorem C7_self_assignment_is_noop (w : World) (a : Nat) (ok : Bool) (env : JNIEnv)
    (p : proxy_updater) :
    w.step (Op.assign a a ok) = w
    ∧ proxy_updater.operator_assign env ok a a p p = (env, p) := by
  constructor
  · simp only [World.step]
    split
    · rename_i self oth hl hl2
      have hget := live_eq_some w a self hl
      simp [proxy_updater.operator_assign, set_self w.heap a (some self) hget]
    · rfl
  · simp [proxy_updater.operator_assign]

/-! ## C8: destruction -/

/-- C9.  For every proxy holding a reference `g` (so pinning `F = g.obj`) and
every context, if the callback completes normally, the calls of
`operator()(context)` are, in order: `get_jni_env`, one `CallVoidMethod` on `g`
with the fixed method id, the address of the context and the `app_id` of its
vertex data, and `ExceptionOccurred`; nothing else (no `ExceptionClear`, no
`ThrowNew`).  It returns with no exception pending, the same pins (so every pin
count unchanged) and no invalid release.  The proxy is an input only:
`operator()` assigns no member. -/
theorem C9_normal_dispatch (self : proxy_updater) (g : jref) (rt : ForeignRuntime)
    (mid : jmethodID) (env : JNIEnv) (context : icontext_type)
    (hpin : self.mjava_updater = some g)
    (hnormal : rt.callback (some g) mid context.addr context.vertex_data.app_id = none) :
    (self.operator_call rt mid env context).trace
        = env.trace ++ [Action.get_jni_env,
            Action.CallVoidMethod (some g) mid context.addr context.vertex_data.app_id,
            Action.ExceptionOccurred]
    ∧ (self.operator_call rt mid env context).pending = none
    ∧ (self.operator_call rt mid env context).globals = env.globals
    ∧ (∀ F, (self.operator_call rt mid env context).pins F = env.pins F)
    ∧ (self.operator_call rt mid env context).invalidDeletes = env.invalidDeletes := by
  rw [operator_call_normal self rt mid env context (by rw [hpin]; exact hnormal)]
  simp [hpin, JNIEnv.pins]

/-- C9 at `Example.proxy` with a callback that completes normally. -/
theorem C9_normal_dispatch_witness :
    Example.proxy.mjava_updater = some Example.pinned
    ∧ Example.rt_normal.callback (some Example.pinned) 7 Example.ctx.addr
        Example.ctx.vertex_data.app_id = none
    ∧ (Example.proxy.operator_call Example.rt_normal 7 Example.env Example.ctx).trace
        = Example.env.trace ++ [Action.get_jni_env,
            Action.CallVoidMethod (some Example.pinned) 7 Example.ctx.addr
              Example.ctx.vertex_data.app_id,
            Action.ExceptionOccurred]
    ∧ (Example.proxy.operator_call Example.rt_normal 7 Example.env Example.ctx).pending = none :=
  ⟨rfl, rfl,
    (C9_normal_dispatch Example.proxy Example.pinned Example.rt_normal 7 Example.env
      Example.ctx rfl rfl).1,
    by decide⟩

/-! ## C10: assignment between two objects -/

/-- C10, counterexample.  In `Example.two` the proxies at addresses 0 and 1 both
pin object 5.  The assignment of 1 to 0 with a `NewGlobalRef` that fails leaves
the target empty although the source is not, and lowers the pin count of 5 from
two to one. -/
theorem C10_counterexample :
    Example.two.live 0 = some { mjava_updater := some { id := 0, obj := 5 } }
    ∧ Example.two.live 1 = some { mjava_updater := some { id := 1, obj := 5 } }
    ∧ Example.two.env.pins 5 = 2
    ∧ (Example.two.step (Op.assign 0 1 false)).live 0 = some { mjava_updater := none }
    ∧ (Example.two.step (Op.assign 0 1 false)).env.pins 5 = 1 := by
  decide

/-- C10, amended.  For distinct live objects `a` and `b`, where the handle of
`a`, if any, is a live pin, and whatever `NewGlobalRef` answers (`ok`), the
assignment `a = b`: first attempts the acquisition (a `NewGlobalRef` on the
handle of `b` if `b` is non-empty), then releases (a `DeleteGlobalRef` of the old
handle of `a` if `a` is non-empty), and the thread it leaves is the one after the
release; `a` then holds what the acquisition returned; `b` is unchanged; no
release is invalid.  The trace shows the order: `get_jni_env`, the
`NewGlobalRef`, the `DeleteGlobalRef`.  The acquisition raises the count of the
object its result designates by one, the release lowers the count of the old
target of `a` by one.  What the acquisition returns is a new reference to the
target of `b` (`NULL` if `b` is empty) when `NewGlobalRef` succeeds, and `NULL`
when it fails.  Provided `NewGlobalRef` succeeds: the acquisition raises the
count of the target of `b` by one, and when `a` and `b` both pin `F`, the count of
`F` is at no step lower than before the assignment. -/
theorem C10_assign_acquires_then_releases (w : World) (a b : Nat) (pa pb : proxy_updater)
    (ok : Bool)
    (hne : a ≠ b) (ha : w.live a = some pa) (hb : w.live b = some pb)
    (hlive : ∀ g, pa.mjava_updater = some g → g ∈ w.env.globals) :
    (w.step (Op.assign a b ok)).env
        = proxy_updater.assign_release
            (proxy_updater.assign_acquire (get_jni_env w.env) ok pb).1 pa
    ∧ (w.step (Op.assign a b ok)).live a
        = some { mjava_updater := (proxy_updater.assign_acquire (get_jni_env w.env) ok pb).2 }
    ∧ (w.step (Op.assign a b ok)).live b = some pb
    ∧ (proxy_updater.assign_acquire (get_jni_env w.env) ok pb).2
        = (if ok then pb.mjava_updater.map (fun gb => { id := w.env.next, obj := gb.obj })
           else none)
    ∧ (w.step (Op.assign a b ok)).env.trace
        = w.env.trace ++ [Action.get_jni_env]
          ++ (match pb.mjava_updater with
              | none => []
              | some gb =>
                [Action.NewGlobalRef (some gb)
                  (if ok then some { id := w.env.next, obj := gb.obj } else none)])
          ++ (match pa.mjava_updater with
              | none => []
              | some ga => [Action.DeleteGlobalRef (some ga)])
    ∧ (∀ F, (proxy_updater.assign_acquire (get_jni_env w.env) ok pb).1.pins F
        = w.env.pins F + refsTo (proxy_updater.assign_acquire (get_jni_env w.env) ok pb).2 F)
    ∧ (∀ F, (w.step (Op.assign a b ok)).env.pins F + refsTo pa.mjava_updater F
        = (proxy_updater.assign_acquire (get_jni_env w.env) ok pb).1.pins F)
    ∧ (w.step (Op.assign a b ok)).env.invalidDeletes = w.env.invalidDeletes
    ∧ (ok = true → ∀ F, (proxy_updater.assign_acquire (get_jni_env w.env) ok pb).1.pins F
        = w.env.pins F + refsTo pb.mjava_updater F)
    ∧ (ok = true → ∀ F, refsTo pa.mjava_updater F = 1 → refsTo pb.mjava_updater F = 1 →
        w.env.pins F ≤ (proxy_updater.assign_acquire (get_jni_env w.env) ok pb).1.pins F
        ∧ w.env.pins F ≤ (w.step (Op.assign a b ok)).env.pins F) := by
  have hstep : w.step (Op.assign a b ok)
      = { env := proxy_updater.assign_release
            (proxy_updater.assign_acquire (get_jni_env w.env) ok pb).1 pa,
          heap := w.heap.set a (some { mjava_updater :=
            (proxy_updater.assign_acquire (get_jni_env w.env) ok pb).2 }) } := by
    simp [World.step, ha, hb, proxy_updater.operator_assign, hne]
  have hlive2 : ∀ g, pa.mjava_updater = some g →
      g ∈ (proxy_updater.assign_acquire (get_jni_env w.env) ok pb).1.globals :=
    fun g hg => assign_acquire_mem _ _ _ g (hlive g hg)
  have hacq : ∀ F, (proxy_updater.assign_acquire (get_jni_env w.env) ok pb).1.pins F
      = w.env.pins F + refsTo (proxy_updater.assign_acquire (get_jni_env w.env) ok pb).2 F := by
    intro F
    rw [assign_acquire_pins, get_jni_env_pins]
  have hacq_ok : ok = true → ∀ F,
      (proxy_updater.assign_acquire (get_jni_env w.env) ok pb).1.pins F
      = w.env.pins F + refsTo pb.mjava_updater F := by
    intro hok F
    subst hok
    rw [hacq F, assign_acquire_result]
    rcases pb.mjava_updater with _ | gb <;> simp [refsTo]
  have hrel : ∀ F, (proxy_updater.assign_release
      (proxy_updater.assign_acquire (get_jni_env w.env) ok pb).1 pa).pins F
      + refsTo pa.mjava_updater F
      = (proxy_updater.assign_acquire (get_jni_env w.env) ok pb).1.pins F :=
    fun F => assign_release_pins _ pa F hlive2
  rw [hstep]
  refine ⟨rfl, live_set_self w _ a pa _ ha, ?_, assign_acquire_result _ ok pb, ?_, hacq, hrel,
    ?_, hacq_ok, ?_⟩
  · rw [live_set_ne w _ a b _ hne, hb]
  · rcases hpb : pb.mjava_updater with _ | gb <;> rcases hpa : pa.mjava_updater with _ | ga
    · simp [proxy_updater.assign_release, proxy_updater.assign_acquire, hpa, hpb, get_jni_env,
        JNIEnv.record]
    · have hg : ga ∈ w.env.globals := hlive ga hpa
      simp [proxy_updater.assign_release, proxy_updater.assign_acquire, hpa, hpb, get_jni_env,
        JNIEnv.record, JNIEnv.DeleteGlobalRef, hg]
    · cases ok <;>
        simp [proxy_updater.assign_release, proxy_updater.assign_acquire, hpa, hpb, get_jni_env,
          JNIEnv.record, JNIEnv.NewGlobalRef]
    · have hg : ga ∈ w.env.globals := hlive ga hpa
      cases ok <;>
        simp [proxy_updater.assign_release, proxy_updater.assign_acquire, hpa, hpb, get_jni_env,
          JNIEnv.record, JNIEnv.DeleteGlobalRef, JNIEnv.NewGlobalRef, hg]
  · show (proxy_updater.assign_release _ pa).invalidDeletes = _
    rw [assign_release_invalid _ _ hlive2, assign_acquire_invalid, get_jni_env_invalid]
  · intro hok F h1 h2
    have h3 := hacq_ok hok F
    have h4 := hrel F
    refine ⟨by omega, ?_⟩
    show w.env.pins F ≤ (proxy_updater.assign_release _ pa).pins F
    omega

/-- C10, amended, in `Example.two`, where both proxies pin object 5, with a
`NewGlobalRef` that succeeds: two pins before, three after the acquisition, two
after the release. -/
theorem C10_assign_acquires_then_releases_witness :
    (0 : Nat) ≠ 1
    ∧ Example.two.live 0 = some { mjava_updater := some { id := 0, obj := 5 } }
    ∧ Example.two.live 1 = some { mjava_updater := some { id := 1, obj := 5 } }
    ∧ (∀ g, (proxy_updater.mk (some { id := 0, obj := 5 })).mjava_updater = some g →
        g ∈ Example.two.env.globals)
    ∧ Example.two.env.pins 5 = 2
    ∧ (proxy_updater.assign_acquire (get_jni_env Example.two.env) true
        { mjava_updater := some { id := 1, obj := 5 } }).1.pins 5 = 3
    ∧ (Example.two.step (Op.assign 0 1 true)).env.pins 5 = 2
    ∧ (Example.two.step (Op.assign 0 1 true)).live 0
        = some { mjava_updater := (proxy_updater.assign_acquire (get_jni_env Example.two.env)
            true { mjava_updater := some { id := 1, obj := 5 } }).2 } :=
  have hl : ∀ g, (proxy_updater.mk (some { id := 0, obj := 5 })).mjava_updater = some g →
      g ∈ Example.two.env.globals := by
    intro g hg
    cases hg
    decide
  ⟨by decide, by decide, by decide, hl, by decide, by decide, by decide,
    (C10_assign_acquires_then_releases Example.two 0 1
      { mjava_updater := some { id := 0, obj := 5 } }
      { mjava_updater := some { id := 1, obj := 5 } } true
      (by decide) (by decide) (by decide) hl).2.1⟩

end GraphLab
